/-
Verification of the `simple_arguments` command-line parsing library
(src/src/lib.rs) against its specification.

Shallow embedding conventions:
- Rust mutates caller-owned variables through `&mut` references held by the
  registry.  We model the collection of caller variables as an explicit state
  type `σ` threaded through every operation; a `&mut` binding becomes a setter
  function `σ → T → σ`.
- The `Filler` trait becomes a structure holding the `fill` function and the
  type label.  `fill` takes the state and the shared value cursor (a
  `List String`, standing for the `&mut dyn Iterator<Item = &str>`) and
  returns either an `ArgError` or the updated state together with the
  advanced cursor.  Neither of the two fillers in the source mutates state
  before failing, so no state needs to be carried on the error side of `fill`.
- `Arguments::parse` returns `Result<Vec<String>, String>` in Rust while the
  variable writes happen through the references; here `parse` returns a
  `ParseResult σ` whose error constructor also carries the state reached when
  the error occurred (the writes already performed).
- `HashMap<String, Flag>` becomes an association list with replace-on-insert;
  only lookup and the entry multiset are observable (usage sorts by key, and
  Rust's iteration order is unspecified), which this representation preserves.
- `usize::from_str` is modelled by `natFromStr` (decimal digit strings),
  `String::from_str` by `fun s => some s`; string primitives that Rust
  applies at the byte level (`starts_with("--")`, `&a[2..]`) are modelled at
  the character level, which coincides because the `--` prefix is ASCII;
  Rust's `{:?}` debug formatting of `ArgError` is modelled
  by `ArgError.debugFmt` (faithful for payload strings without escapes, the
  only ones the library produces).
- Rust's `sort_by_key` is a stable sort by `String` order; `List.insertionSort`
  with the same key order is stable and sorts, hence extensionally equal.
-/
import Mathlib

namespace SimpleArguments

/-- `enum ArgError { Err(String), OutOfArgs }` from src/src/lib.rs. -/
inductive ArgError where
  | Err (s : String)
  | OutOfArgs
deriving DecidableEq, Repr

/-- Rust's `#[derive(Debug)]` formatting of `ArgError`, as used by
`format!("{}: {:?}", f, err)` in `Arguments::parse`. -/
def ArgError.debugFmt : ArgError → String
  | .Err s => "Err(\"" ++ s ++ "\")"
  | .OutOfArgs => "OutOfArgs"

/-- The `Filler` trait: `fill` consumes tokens from the shared cursor and
writes into the bound variable (modelled as updating the state `σ`);
`type_name` is the label shown by `usage`. -/
structure Filler (σ : Type) where
  fill : σ → List String → Except ArgError (σ × List String)
  type_name : String

/-- `impl Filler for BooleanFlag`: sets the bound boolean to `true`,
consumes nothing, never fails; type label `"flag"`.  The `&'a mut bool`
field is modelled by the setter `set`. -/
def BooleanFlag.filler {σ : Type} (set : σ → Bool → σ) : Filler σ where
  fill st s := .ok (set st true, s)
  type_name := "flag"

/-- `impl<T: FromStr> Filler for &mut T`: pop one token (`OutOfArgs` if the
cursor is exhausted), convert it (`Err("error parsing <type>")` on failure),
on success overwrite the bound variable.  `from_str` models `T::from_str`
(with conversion failure collapsed to `none`), `typeName` models
`std::any::type_name`, and `set` models the `&mut T` write. -/
def scalarFiller {σ T : Type} (from_str : String → Option T)
    (typeName : String) (set : σ → T → σ) : Filler σ where
  fill st s :=
    match s with
    | [] => .error .OutOfArgs
    | item :: rest =>
      match from_str item with
      | none => .error (.Err ("error parsing " ++ typeName))
      | some v => .ok (set st v, rest)
  type_name := typeName

/-- `struct Flag { description, value }` from src/src/lib.rs. -/
structure Flag (σ : Type) where
  description : String
  value : Filler σ

/-- `struct Arguments { flags: HashMap<String, Flag>, name: Option<String> }`.
The hash map is modelled as an association list with unique keys. -/
structure Arguments (σ : Type) where
  flags : List (String × Flag σ)
  name : Option String

/-- `HashMap::insert`: replace the value under an existing key, otherwise
add the entry. -/
def insertFlag {σ : Type} : List (String × Flag σ) → String → Flag σ →
    List (String × Flag σ)
  | [], k, v => [(k, v)]
  | (k', v') :: rest, k, v =>
    if k' = k then (k, v) :: rest else (k', v') :: insertFlag rest k v

/-- `HashMap::get_mut` (read side): find the flag registered under `k`. -/
def lookupFlag {σ : Type} : List (String × Flag σ) → String → Option (Flag σ)
  | [], _ => none
  | (k', v) :: rest, k => if k' = k then some v else lookupFlag rest k

/-- `Arguments::new`. -/
def Arguments.new {σ : Type} (name : Option String) : Arguments σ :=
  { flags := [], name := name }

/-- `Arguments::add`: wrap the filler with its description and insert it
under `name` (replacing any previous binding). -/
def Arguments.add {σ : Type} (args : Arguments σ) (filler : Filler σ)
    (name : String) (description : String) : Arguments σ :=
  { args with
    flags := insertFlag args.flags name
      { description := description, value := filler } }

/-- `Arguments::add_bool`: insert a `BooleanFlag` filler under `name`. -/
def Arguments.add_bool {σ : Type} (args : Arguments σ) (set : σ → Bool → σ)
    (name : String) (description : String) : Arguments σ :=
  { args with
    flags := insertFlag args.flags name
      { description := description, value := BooleanFlag.filler set } }

/-- `a.starts_with("--")`.  Rust compares the first two bytes; since `-` is
ASCII, that is the same as comparing the first two characters. -/
def startsWithDashDash (s : String) : Bool :=
  match s.data with
  | '-' :: '-' :: _ => true
  | _ => false

/-- `&a[2..]` on a token that starts with `--`: drop the first two bytes,
i.e. (the prefix being ASCII) the first two characters. -/
def stripDashDash (s : String) : String :=
  String.mk (s.data.drop 2)

/-- The token-partition loop at the top of `Arguments::parse`: tokens
starting with `--` go to the flag list (with the two leading characters
stripped), all others to the value list, each keeping input order. -/
def splitArgs : List String → List String × List String
  | [] => ([], [])
  | a :: rest =>
    let (fs, vs) := splitArgs rest
    if startsWithDashDash a then (stripDashDash a :: fs, vs) else (fs, a :: vs)

/-- Result of `Arguments::parse`.  Rust returns `Result<Vec<String>, String>`
and performs the variable writes through `&mut` references; here the final
state is part of the result, and the error case also records the state at
the moment of failure (the writes of the flags already processed). -/
inductive ParseResult (σ : Type) where
  | ok (st : σ) (leftovers : List String)
  | err (st : σ) (msg : String)
deriving DecidableEq

/-- The flag-processing loop of `Arguments::parse`: for each flag token in
appearance order, look it up (`"invalid flag: <f>"` if unregistered) and run
its filler against the shared value cursor (`"<f>: <debug of ArgError>"` on
failure); on success return the unconsumed values. -/
def processFlags {σ : Type} (args : Arguments σ) :
    List String → σ → List String → ParseResult σ
  | [], st, cursor => .ok st cursor
  | f :: fs, st, cursor =>
    match lookupFlag args.flags f with
    | none => .err st ("invalid flag: " ++ f)
    | some flag =>
      match flag.value.fill st cursor with
      | .error e => .err st (f ++ ": " ++ ArgError.debugFmt e)
      | .ok (st', cursor') => processFlags args fs st' cursor'

/-- `Arguments::parse`. -/
def Arguments.parse {σ : Type} (args : Arguments σ) (st : σ)
    (tokens : List String) : ParseResult σ :=
  let (fs, vs) := splitArgs tokens
  processFlags args fs st vs

/-- The `{: <20}` format padding: left-aligned in a 20-column field.
(The source also computes a `max_len` fold, but never uses it; the
fixed width 20 is the behaviour.) -/
def padRight (s : String) (w : Nat) : String :=
  s ++ String.mk (List.replicate (w - s.length) ' ')

/-- One line of the usage block:
`format!("\t--{: <20} ({}) {}\n", name, type_name, description)`. -/
def flagLine {σ : Type} (name : String) (fl : Flag σ) : String :=
  "\t--" ++ padRight name 20 ++ " (" ++ fl.value.type_name ++ ") "
    ++ fl.description ++ "\n"

/-- Lexicographic order on character lists, comparing code points.  Rust
orders `String`s by bytes; on valid UTF-8 the byte order coincides with the
code-point order, so this models Rust's `Ord for String`. -/
def charListLe : List Char → List Char → Bool
  | [], _ => true
  | _ :: _, [] => false
  | a :: as, b :: bs =>
    if a.toNat < b.toNat then true
    else if b.toNat < a.toNat then false
    else charListLe as bs

/-- Rust's `String` order (see `charListLe`). -/
def keyLe (a b : String) : Bool :=
  charListLe a.data b.data

/-- The key order used by `flags.sort_by_key(|(name, _)| name.to_owned())`. -/
def byKey {σ : Type} (p q : String × Flag σ) : Prop := keyLe p.1 q.1 = true

instance {σ : Type} : DecidableRel (byKey (σ := σ)) :=
  fun p q => inferInstanceAs (Decidable (keyLe p.1 q.1 = true))

/-- `Arguments::usage`: optional `usage:` header (only when a program name
was supplied at construction), then one `flagLine` per registered flag,
sorted by flag name. -/
def Arguments.usage {σ : Type} (args : Arguments σ) : String :=
  let sorted := args.flags.insertionSort byKey
  let header :=
    match args.name with
    | some exec => "usage:\n" ++ exec ++ " [flags] args...\n"
    | none => ""
  header ++ String.join (sorted.map (fun p => flagLine p.1 p.2))

/-! ### Concrete instantiations used in the examples and witnesses -/

/-- A record of caller-owned variables for concrete test scenarios. -/
structure DemoState where
  count : Nat
  verbose : Bool
  str : String
  x : Nat
  y : Nat
deriving DecidableEq, Repr

def demoInit : DemoState :=
  { count := 0, verbose := false, str := "", x := 0, y := 0 }

def setCount (st : DemoState) (v : Nat) : DemoState := { st with count := v }

def setVerbose (st : DemoState) (v : Bool) : DemoState := { st with verbose := v }

def setStr (st : DemoState) (v : String) : DemoState := { st with str := v }

def setX (st : DemoState) (v : Nat) : DemoState := { st with x := v }

def setY (st : DemoState) (v : Nat) : DemoState := { st with y := v }

/-- `usize::from_str` on canonical decimal forms: a non-empty string of
decimal digits parses to the number it denotes, anything else fails. -/
def natFromStr (s : String) : Option Nat :=
  if s.data ≠ [] ∧ s.data.all Char.isDigit then
    some (s.data.foldl (fun n c => n * 10 + (c.toNat - '0'.toNat)) 0)
  else
    none

/-- The scalar filler for a `usize` variable. -/
def usizeFiller (set : DemoState → Nat → DemoState) : Filler DemoState :=
  scalarFiller natFromStr "usize" set

/-- The scalar filler for a `String` variable (`String::from_str` never
fails; `type_name::<String>()` is `"alloc::string::String"`). -/
def stringFiller (set : DemoState → String → DemoState) : Filler DemoState :=
  scalarFiller (fun s => some s) "alloc::string::String" set

/-- Registry with a scalar `count` flag and a boolean `verbose` flag. -/
def cvArgs : Arguments DemoState :=
  ((Arguments.new (some "args_tester")).add (usizeFiller setCount)
      "count" "a number").add_bool setVerbose "verbose" "a boolean value"

/-- Registry with scalar flags `count` and `str`. -/
def csArgs : Arguments DemoState :=
  ((Arguments.new none).add (usizeFiller setCount) "count" "a number").add
    (stringFiller setStr) "str" "a string"

/-- Registry with a single scalar `String` flag named `string`. -/
def strArgs : Arguments DemoState :=
  (Arguments.new none).add (stringFiller setStr) "string" "a string"

/-- Registry where the name `a` is registered twice: first writing `x`,
then writing `y`. -/
def dupArgs : Arguments DemoState :=
  ((Arguments.new none).add (usizeFiller setX) "a" "first").add
    (usizeFiller setY) "a" "second"

/-- Registry with scalar flags `a` (writing `x`) and `b` (writing `y`). -/
def xyArgs : Arguments DemoState :=
  ((Arguments.new none).add (usizeFiller setX) "a" "the x value").add
    (usizeFiller setY) "b" "the y value"

/-- The `count` entry of `cvArgs`. -/
def countEntry : String × Flag DemoState :=
  ("count", { description := "a number", value := usizeFiller setCount })

/-- The `verbose` entry of `cvArgs`. -/
def verboseEntry : String × Flag DemoState :=
  ("verbose", { description := "a boolean value", value := BooleanFlag.filler setVerbose })

/-- Classifier for `cvArgs`: `count` is the only value-consuming flag. -/
def cvTag : String → Bool := fun f => f == "count"

/-! ### Helper lemmas -/

/-- The single partition pass of `parse` equals filtering the flag tokens
(stripping the marker) and filtering the value tokens. -/
theorem splitArgs_eq_filter (tokens : List String) :
    splitArgs tokens
      = ((tokens.filter (fun t => startsWithDashDash t)).map stripDashDash,
         tokens.filter (fun t => !startsWithDashDash t)) := by
  induction tokens with
  | nil => rfl
  | cons a rest ih =>
    simp only [splitArgs, ih, List.filter_cons, List.map]
    by_cases h : startsWithDashDash a = true
    · simp [h]
    · simp [Bool.eq_false_iff.mpr h, h]

theorem startsWithDashDash_marker (name : String) :
    startsWithDashDash ("--" ++ name) = true := by
  cases name
  rfl

theorem stripDashDash_marker (name : String) :
    stripDashDash ("--" ++ name) = name := by
  cases name
  rfl

/-- `lookupFlag` after `insertFlag` at the same key finds the new flag. -/
theorem lookupFlag_insertFlag_self {σ : Type} (m : List (String × Flag σ))
    (k : String) (v : Flag σ) : lookupFlag (insertFlag m k v) k = some v := by
  induction m with
  | nil => simp [insertFlag, lookupFlag]
  | cons p rest ih =>
    by_cases h : p.1 = k
    · simp [insertFlag, lookupFlag, h]
    · simpa [insertFlag, lookupFlag, h] using ih

/-- `lookupFlag` after `insertFlag` at a different key is unchanged. -/
theorem lookupFlag_insertFlag_ne {σ : Type} (m : List (String × Flag σ))
    (k k' : String) (v : Flag σ) (h : k' ≠ k) :
    lookupFlag (insertFlag m k v) k' = lookupFlag m k' := by
  have hne : ¬ k = k' := fun hh => h hh.symm
  induction m with
  | nil => simp [insertFlag, lookupFlag, hne]
  | cons p rest ih =>
    by_cases hp : p.1 = k
    · simp [insertFlag, lookupFlag, hp, hne]
    · simp only [insertFlag, hp, if_false, lookupFlag]
      by_cases hk : p.1 = k'
      · simp [hk]
      · simp [hk, ih]

/-- The names present after `insertFlag` are the inserted name and the old
names. -/
theorem mem_flagKeys_insertFlag {σ : Type} (m : List (String × Flag σ))
    (k x : String) (v : Flag σ)
    (hx : x ∈ (insertFlag m k v).map Prod.fst) :
    x = k ∨ x ∈ m.map Prod.fst := by
  induction m with
  | nil => simpa [insertFlag] using hx
  | cons p rest ih =>
    by_cases hp : p.1 = k
    · simp only [insertFlag, hp, if_true, List.map, List.mem_cons] at hx
      rcases hx with h | h
      · exact .inl h
      · exact .inr (by simp [hp, h])
    · simp only [insertFlag, hp, if_false, List.map, List.mem_cons] at hx
      rcases hx with h | h
      · exact .inr (by simp [h])
      · rcases ih h with h' | h'
        · exact .inl h'
        · exact .inr (by simp [h'])

/-- `insertFlag` keeps the flag names free of duplicates. -/
theorem nodup_flagKeys_insertFlag {σ : Type} (m : List (String × Flag σ))
    (k : String) (v : Flag σ) (hm : (m.map Prod.fst).Nodup) :
    ((insertFlag m k v).map Prod.fst).Nodup := by
  induction m with
  | nil => simp [insertFlag]
  | cons p rest ih =>
    simp only [List.map, List.nodup_cons] at hm
    by_cases hp : p.1 = k
    · simp only [insertFlag, hp, if_true, List.map, List.nodup_cons]
      exact ⟨by simpa [hp] using hm.1, hm.2⟩
    · simp only [insertFlag, hp, if_false, List.map, List.nodup_cons]
      refine ⟨fun hmem => ?_, ih hm.2⟩
      rcases mem_flagKeys_insertFlag rest k p.1 v hmem with h | h
      · exact hp h
      · exact hm.1 h

/-- Unfolding step: a token carrying the `--` marker joins the flag list
with the marker stripped. -/
theorem splitArgs_cons_flag (name : String) (rest : List String) :
    splitArgs (("--" ++ name) :: rest)
      = (name :: (splitArgs rest).1, (splitArgs rest).2) := by
  cases h : splitArgs rest with
  | mk fs vs =>
    simp [splitArgs, h, startsWithDashDash_marker, stripDashDash_marker]

/-- Unfolding step: a token without the `--` marker joins the value list. -/
theorem splitArgs_cons_value (t : String) (rest : List String)
    (ht : startsWithDashDash t = false) :
    splitArgs (t :: rest) = ((splitArgs rest).1, t :: (splitArgs rest).2) := by
  cases h : splitArgs rest with
  | mk fs vs => simp [splitArgs, h, ht]

/-- `parse` is the flag-processing loop run on the partitioned tokens. -/
theorem parse_eq_processFlags {σ : Type} (args : Arguments σ) (st : σ)
    (tokens fs vs : List String) (h : splitArgs tokens = (fs, vs)) :
    args.parse st tokens = processFlags args fs st vs := by
  unfold Arguments.parse
  rw [h]

/-- Unfolding step of the loop: a successful fill recurses on the rest. -/
theorem processFlags_step_ok {σ : Type} (args : Arguments σ) (f : String)
    (fs : List String) (st : σ) (cursor : List String) (fl : Flag σ)
    (st1 : σ) (c1 : List String)
    (hl : lookupFlag args.flags f = some fl)
    (hf : fl.value.fill st cursor = .ok (st1, c1)) :
    processFlags args (f :: fs) st cursor = processFlags args fs st1 c1 := by
  simp [processFlags, hl, hf]

/-- Unfolding step of the loop: a failing fill aborts with the flag name
and the debug form of the cause. -/
theorem processFlags_step_err {σ : Type} (args : Arguments σ) (f : String)
    (fs : List String) (st : σ) (cursor : List String) (fl : Flag σ)
    (e : ArgError)
    (hl : lookupFlag args.flags f = some fl)
    (hf : fl.value.fill st cursor = .error e) :
    processFlags args (f :: fs) st cursor
      = .err st (f ++ ": " ++ ArgError.debugFmt e) := by
  simp [processFlags, hl, hf]

/-- A successful scalar conversion pops the token and writes the value. -/
theorem scalarFiller_fill_ok {σ T : Type} (from_str : String → Option T)
    (tn : String) (set : σ → T → σ) (st : σ) (item : String)
    (rest : List String) (v : T) (h : from_str item = some v) :
    (scalarFiller from_str tn set).fill st (item :: rest)
      = .ok (set st v, rest) := by
  simp [scalarFiller, h]

/-- A filler that never advances the cursor (the boolean-flag converter). -/
def Filler.ConsumesNone {σ : Type} (fl : Filler σ) : Prop :=
  ∀ st c st' c', fl.fill st c = .ok (st', c') → c' = c

/-- A filler that pops exactly one token on success (the scalar converter). -/
def Filler.ConsumesOne {σ : Type} (fl : Filler σ) : Prop :=
  ∀ st c st' c', fl.fill st c = .ok (st', c') → ∃ x, c = x :: c'

theorem booleanFlag_consumesNone {σ : Type} (set : σ → Bool → σ) :
    (BooleanFlag.filler set).ConsumesNone := by
  intro st c st' c' h
  simp only [BooleanFlag.filler, Except.ok.injEq, Prod.mk.injEq] at h
  exact h.2.symm

theorem scalarFiller_consumesOne {σ T : Type} (from_str : String → Option T)
    (tn : String) (set : σ → T → σ) :
    (scalarFiller from_str tn set).ConsumesOne := by
  intro st c st' c' h
  match c with
  | [] => simp [scalarFiller] at h
  | item :: rest =>
    refine ⟨item, ?_⟩
    simp only [scalarFiller] at h
    match hc : from_str item with
    | none => rw [hc] at h; simp at h
    | some v =>
      rw [hc] at h
      simp only [Except.ok.injEq, Prod.mk.injEq] at h
      rw [h.2]

/-- Main cursor invariant of the flag-processing loop: under a
classification of the registered fillers into value-consuming and
non-consuming ones, a successful run leaves a suffix of the cursor whose
length is the cursor length minus the number of consuming invocations. -/
theorem processFlags_cursor {σ : Type} (args : Arguments σ)
    (tag : String → Bool)
    (htag : ∀ f fl, lookupFlag args.flags f = some fl →
      ((tag f = true → fl.value.ConsumesOne)
        ∧ (tag f = false → fl.value.ConsumesNone))) :
    ∀ (fs : List String) (st : σ) (c : List String) (st' : σ)
      (c' : List String),
      processFlags args fs st c = .ok st' c' →
      c' <:+ c ∧ c'.length + fs.countP tag = c.length := by
  intro fs
  induction fs with
  | nil =>
    intro st c st' c' h
    simp only [processFlags, ParseResult.ok.injEq] at h
    simp [h.2, List.countP_nil]
  | cons f fs ih =>
    intro st c st' c' h
    simp only [processFlags] at h
    match hl : lookupFlag args.flags f with
    | none => simp [hl] at h
    | some fl =>
      simp only [hl] at h
      match hf : fl.value.fill st c with
      | .error e => simp [hf] at h
      | .ok (st1, c1) =>
        simp only [hf] at h
        obtain ⟨hsuf, hlen⟩ := ih st1 c1 st' c' h
        match htagf : tag f with
        | true =>
          obtain ⟨x, hx⟩ := (htag f fl hl).1 htagf st c st1 c1 hf
          subst hx
          refine ⟨hsuf.trans (List.suffix_cons x c1), ?_⟩
          simp only [List.countP_cons, htagf, if_true, List.length_cons]
          omega
        | false =>
          have hc1 : c1 = c := (htag f fl hl).2 htagf st c st1 c1 hf
          subst hc1
          refine ⟨hsuf, ?_⟩
          simp only [List.countP_cons, htagf]
          simpa using hlen

theorem charListLe_cons (a b : Char) (as bs : List Char) :
    charListLe (a :: as) (b :: bs)
      = if a.toNat < b.toNat then true
        else if b.toNat < a.toNat then false
        else charListLe as bs := rfl

theorem charListLe_total : ∀ (as bs : List Char),
    charListLe as bs = true ∨ charListLe bs as = true := by
  intro as
  induction as with
  | nil => intro bs; left; rfl
  | cons a as ih =>
    intro bs
    cases bs with
    | nil => right; rfl
    | cons b bs =>
      rcases Nat.lt_trichotomy a.toNat b.toNat with h | h | h
      · left; rw [charListLe_cons, if_pos h]
      · have hne1 : ¬ a.toNat < b.toNat := by omega
        have hne2 : ¬ b.toNat < a.toNat := by omega
        rcases ih bs with hh | hh
        · left; rw [charListLe_cons, if_neg hne1, if_neg hne2]; exact hh
        · right; rw [charListLe_cons, if_neg hne2, if_neg hne1]; exact hh
      · right; rw [charListLe_cons, if_pos h]

theorem charListLe_trans : ∀ (as bs cs : List Char),
    charListLe as bs = true → charListLe bs cs = true →
    charListLe as cs = true := by
  intro as
  induction as with
  | nil => intro bs cs h1 h2; rfl
  | cons a as ih =>
    intro bs cs h1 h2
    cases bs with
    | nil => exact absurd h1 (by rw [show charListLe (a :: as) [] = false from rfl]; simp)
    | cons b bs =>
      cases cs with
      | nil => exact absurd h2 (by rw [show charListLe (b :: bs) [] = false from rfl]; simp)
      | cons c cs =>
        rw [charListLe_cons] at h1 h2
        by_cases hab : a.toNat < b.toNat <;>
          by_cases hba : b.toNat < a.toNat <;>
          by_cases hbc : b.toNat < c.toNat <;>
          by_cases hcb : c.toNat < b.toNat <;>
          first
          | omega
          | (rw [charListLe_cons, if_pos (by omega : a.toNat < c.toNat)])
          | (rw [if_neg hbc, if_pos hcb] at h2; exact absurd h2 (by simp))
          | (rw [if_neg hab, if_pos hba] at h1; exact absurd h1 (by simp))
          | (rw [if_neg hab, if_neg hba] at h1
             rw [if_neg hbc, if_neg hcb] at h2
             rw [charListLe_cons, if_neg (by omega : ¬ a.toNat < c.toNat),
               if_neg (by omega : ¬ c.toNat < a.toNat)]
             exact ih bs cs h1 h2)

theorem charListLe_antisymm : ∀ (as bs : List Char),
    charListLe as bs = true → charListLe bs as = true → as = bs := by
  intro as
  induction as with
  | nil =>
    intro bs h1 h2
    cases bs with
    | nil => rfl
    | cons b bs => exact absurd h2 (by rw [show charListLe (b :: bs) [] = false from rfl]; simp)
  | cons a as ih =>
    intro bs h1 h2
    cases bs with
    | nil => exact absurd h1 (by rw [show charListLe (a :: as) [] = false from rfl]; simp)
    | cons b bs =>
      rw [charListLe_cons] at h1 h2
      by_cases hab : a.toNat < b.toNat
      · rw [if_neg (by omega : ¬ b.toNat < a.toNat), if_pos hab] at h2
        exact absurd h2 (by simp)
      · by_cases hba : b.toNat < a.toNat
        · rw [if_neg hab, if_pos hba] at h1
          exact absurd h1 (by simp)
        · have heq : a = b := by
            have hn : a.toNat = b.toNat := by omega
            rw [← Char.ofNat_toNat a, ← Char.ofNat_toNat b, hn]
          rw [if_neg hab, if_neg hba] at h1
          rw [if_neg hba, if_neg hab] at h2
          rw [heq, ih bs h1 h2]

theorem keyLe_antisymm (a b : String) (h1 : keyLe a b = true)
    (h2 : keyLe b a = true) : a = b :=
  String.ext (charListLe_antisymm a.data b.data h1 h2)

instance {σ : Type} : IsTotal (String × Flag σ) byKey where
  total p q := charListLe_total p.1.data q.1.data

instance {σ : Type} : IsTrans (String × Flag σ) byKey where
  trans p q r h1 h2 := charListLe_trans p.1.data q.1.data r.1.data h1 h2

/-- Strict version of `byKey`, used to show that sorting a registry with
duplicate-free names gives a unique result. -/
def byKeyLt {σ : Type} (p q : String × Flag σ) : Prop :=
  byKey p q ∧ p.1 ≠ q.1

instance {σ : Type} : IsAntisymm (String × Flag σ) byKeyLt where
  antisymm p q h1 h2 := absurd (keyLe_antisymm p.1 q.1 h1.1 h2.1) h1.2

theorem sorted_byKeyLt {σ : Type} (l : List (String × Flag σ))
    (hs : List.Sorted byKey l) (hnd : (l.map Prod.fst).Nodup) :
    List.Sorted byKeyLt l := by
  have hne : List.Pairwise (fun p q : String × Flag σ => p.1 ≠ q.1) l :=
    List.pairwise_map.mp hnd
  exact List.Pairwise.and hs hne

/-- Two registries holding the same flags sort identically: the usage
order does not depend on registration order. -/
theorem insertionSort_eq_of_perm {σ : Type} (l1 l2 : List (String × Flag σ))
    (hperm : l1.Perm l2) (hnd : (l1.map Prod.fst).Nodup) :
    l1.insertionSort byKey = l2.insertionSort byKey := by
  have h1p := List.perm_insertionSort byKey l1
  have h2p := List.perm_insertionSort byKey l2
  have hnd2 : (l2.map Prod.fst).Nodup := (hperm.map Prod.fst).nodup hnd
  have hs1 := sorted_byKeyLt _ (List.sorted_insertionSort byKey l1)
    (((h1p.map Prod.fst).symm).nodup hnd)
  have hs2 := sorted_byKeyLt _ (List.sorted_insertionSort byKey l2)
    (((h2p.map Prod.fst).symm).nodup hnd2)
  exact List.eq_of_perm_of_sorted (h1p.trans (hperm.trans h2p.symm)) hs1 hs2

/-- The fillers registered in `cvArgs`, classified: `count` pops exactly one
value token on success, `verbose` pops none. -/
theorem cvArgs_classified :
    ∀ (f : String) (fl : Flag DemoState),
      lookupFlag cvArgs.flags f = some fl →
      ((cvTag f = true → fl.value.ConsumesOne)
        ∧ (cvTag f = false → fl.value.ConsumesNone)) := by
  intro f fl h
  have hlk : lookupFlag cvArgs.flags f
      = (if "count" = f then
          some { description := "a number", value := usizeFiller setCount }
        else if "verbose" = f then
          some { description := "a boolean value", value := BooleanFlag.filler setVerbose }
        else none) := rfl
  by_cases hc : "count" = f
  · rw [hlk, if_pos hc] at h
    injection h with h2
    subst h2
    constructor
    · intro _; exact scalarFiller_consumesOne natFromStr "usize" setCount
    · intro hff; rw [← hc] at hff; exact absurd hff (by decide)
  · by_cases hv : "verbose" = f
    · rw [hlk, if_neg hc, if_pos hv] at h
      injection h with h2
      subst h2
      constructor
      · intro htt; rw [← hv] at htt; exact absurd htt (by decide)
      · intro _; exact booleanFlag_consumesNone setVerbose
    · rw [hlk, if_neg hc, if_neg hv] at h
      cases h

/-! ### Claim theorems -/

/-- C1: `parse` partitions the tokens in original order into flag tokens
(the `--` marker stripped) and value tokens, processes the flags in
appearance order against one shared cursor over the pooled values
(returning whatever that cursor has not consumed), succeeds with empty
leftovers on empty input, and a value token placed before the flag that
consumes it is still available. -/
theorem parse_partitions_and_pools :
    (∀ tokens : List String,
      splitArgs tokens
        = ((tokens.filter (fun t => startsWithDashDash t)).map stripDashDash,
           tokens.filter (fun t => !startsWithDashDash t)))
    ∧ (∀ (σ : Type) (args : Arguments σ) (st : σ) (tokens : List String),
        args.parse st tokens
          = processFlags args (splitArgs tokens).1 st (splitArgs tokens).2)
    ∧ (∀ (σ : Type) (args : Arguments σ) (st : σ),
        args.parse st [] = .ok st [])
    ∧ cvArgs.parse demoInit ["5", "--count"]
        = .ok { demoInit with count := 5 } [] := by
  refine ⟨splitArgs_eq_filter, ?_, ?_, by decide⟩
  · intro σ args st tokens
    cases h : splitArgs tokens with
    | mk fs vs => simp [Arguments.parse, h]
  · intro σ args st
    rfl

/-- C3: a binding registered via `register_flag` (`add_bool`) stores the
boolean-flag converter, whose invocation unconditionally sets the bound
boolean to `true` and consumes nothing from the cursor; concretely,
parsing `["--verbose","--count","5"]` sets `verbose := true` and
`count := 5` with no leftovers. -/
theorem boolean_flag_sets_true :
    (∀ (σ : Type) (set : σ → Bool → σ) (st : σ) (cursor : List String),
      (BooleanFlag.filler set).fill st cursor = .ok (set st true, cursor))
    ∧ (∀ (σ : Type) (args : Arguments σ) (set : σ → Bool → σ) (n d : String),
        lookupFlag (args.add_bool set n d).flags n
          = some { description := d, value := BooleanFlag.filler set })
    ∧ cvArgs.parse demoInit ["--verbose", "--count", "5"]
        = .ok { demoInit with verbose := true, count := 5 } [] := by
  refine ⟨fun σ set st cursor => rfl, ?_, by decide⟩
  intro σ args set n d
  exact lookupFlag_insertFlag_self args.flags n _

/-- C4: a flag token with no registered binding makes `parse` fail with
`invalid flag: <name>` at that very flag, leaving the state exactly as the
earlier successfully processed flags wrote it (no rollback, and the
failing and later flags write nothing). -/
theorem unknown_flag_aborts :
    (∀ (σ : Type) (args : Arguments σ) (f : String) (fs : List String)
        (st : σ) (cursor : List String),
      lookupFlag args.flags f = none →
      processFlags args (f :: fs) st cursor
        = .err st ("invalid flag: " ++ f))
    ∧ csArgs.parse demoInit ["--count", "1", "--nope", "--str", "x"]
        = .err { demoInit with count := 1 } "invalid flag: nope" := by
  refine ⟨?_, by decide⟩
  intro σ args f fs st cursor h
  simp [processFlags, h]

theorem unknown_flag_aborts_witness :
    processFlags (σ := DemoState) csArgs ["nope", "str"] demoInit ["x"]
      = .err demoInit "invalid flag: nope" :=
  unknown_flag_aborts.1 DemoState csArgs "nope" ["str"] demoInit ["x"] rfl

/-- C5: a scalar converter invoked on an exhausted cursor fails with
`OutOfArgs`, and `parse` surfaces it naming the flag: parsing
`["--count"]` fails with `count: OutOfArgs`. -/
theorem scalar_out_of_args :
    (∀ (σ T : Type) (from_str : String → Option T) (tn : String)
        (set : σ → T → σ) (st : σ),
      (scalarFiller from_str tn set).fill st [] = .error .OutOfArgs)
    ∧ cvArgs.parse demoInit ["--count"] = .err demoInit "count: OutOfArgs" :=
  ⟨fun _ _ _ _ _ _ => rfl, by decide⟩

/-- C6: a scalar converter that pops an unconvertible value token fails
with a `ParseError` carrying the target type's name, and the bound
variable is not overwritten: parsing `["--count","abc"]` fails with
`count: Err("error parsing usize")` and the state is unchanged. -/
theorem scalar_parse_error_keeps_value :
    (∀ (σ T : Type) (from_str : String → Option T) (tn : String)
        (set : σ → T → σ) (st : σ) (item : String) (rest : List String),
      from_str item = none →
      (scalarFiller from_str tn set).fill st (item :: rest)
        = .error (.Err ("error parsing " ++ tn)))
    ∧ cvArgs.parse demoInit ["--count", "abc"]
        = .err demoInit "count: Err(\"error parsing usize\")" := by
  refine ⟨?_, by decide⟩
  intro σ T from_str tn set st item rest h
  simp [scalarFiller, h]

theorem scalar_parse_error_keeps_value_witness :
    (scalarFiller natFromStr "usize" setCount).fill demoInit ["abc"]
      = .error (.Err ("error parsing " ++ "usize")) :=
  scalar_parse_error_keeps_value.1 DemoState Nat natFromStr "usize" setCount
    demoInit "abc" [] (by decide)

/-- C2 (counterexample): the round trip fails as universally stated.  The
`String` converter is a scalar binding of a type with a faithful text
representation, and `"--x"` is the textual form of the string value
`"--x"`, yet parsing `["--string","--x"]` does not set the variable: the
value token itself starts with `--`, so it is partitioned as a flag and
the parse fails with `OutOfArgs`. -/
theorem scalar_round_trip_counterexample :
    (fun s : String => some s) "--x" = some "--x"
    ∧ lookupFlag strArgs.flags "string"
        = some { description := "a string", value := stringFiller setStr }
    ∧ strArgs.parse demoInit ["--string", "--x"]
        ≠ .ok (setStr demoInit "--x") []
    ∧ strArgs.parse demoInit ["--string", "--x"]
        = .err demoInit "string: OutOfArgs" :=
  ⟨rfl, rfl, by decide, by decide⟩

/-- C2 (amended): for every registered scalar binding and every value `v`
with textual form `t`, provided `t` does not itself begin with the flag
marker `--`, parsing `["--name", t]` succeeds, sets the bound variable to
`v`, and leaves no leftovers. -/
theorem scalar_round_trip (σ T : Type) (from_str : String → Option T)
    (tn d : String) (set : σ → T → σ) (args : Arguments σ)
    (name t : String) (v : T) (st : σ)
    (hlook : lookupFlag args.flags name
      = some { description := d, value := scalarFiller from_str tn set })
    (ht : startsWithDashDash t = false)
    (hconv : from_str t = some v) :
    args.parse st ["--" ++ name, t] = .ok (set st v) [] := by
  have h1 : splitArgs [t] = ([], [t]) := by
    rw [splitArgs_cons_value t [] ht]
    rfl
  have hsplit : splitArgs ["--" ++ name, t] = ([name], [t]) := by
    rw [splitArgs_cons_flag, h1]
  rw [parse_eq_processFlags args st _ [name] [t] hsplit,
    processFlags_step_ok args name [] st [t]
      { description := d, value := scalarFiller from_str tn set } (set st v) []
      hlook (scalarFiller_fill_ok from_str tn set st t [] v hconv)]
  rfl

theorem scalar_round_trip_witness :
    cvArgs.parse demoInit ["--" ++ "count", "5"] = .ok (setCount demoInit 5) [] :=
  scalar_round_trip DemoState Nat natFromStr "usize" "a number" setCount
    cvArgs "count" "5" 5 demoInit rfl (by decide) (by decide)

/-- C9: for two distinct registered scalar flags `a` and `b` whose bound
variables are independent (their writes commute), parsing
`["--a","1","--b","2"]` and `["--b","2","--a","1"]` both succeed and
produce the identical final state, with no leftovers. -/
theorem scalar_flags_commute (σ T U : Type)
    (fa : String → Option T) (fb : String → Option U)
    (ta tb da db : String) (setA : σ → T → σ) (setB : σ → U → σ)
    (args : Arguments σ) (a b : String) (v1 : T) (v2 : U) (st : σ)
    (hla : lookupFlag args.flags a
      = some { description := da, value := scalarFiller fa ta setA })
    (hlb : lookupFlag args.flags b
      = some { description := db, value := scalarFiller fb tb setB })
    (h1 : fa "1" = some v1) (h2 : fb "2" = some v2)
    (hcomm : setB (setA st v1) v2 = setA (setB st v2) v1) :
    args.parse st ["--" ++ a, "1", "--" ++ b, "2"]
      = .ok (setB (setA st v1) v2) []
    ∧ args.parse st ["--" ++ b, "2", "--" ++ a, "1"]
      = .ok (setB (setA st v1) v2) [] := by
  have hv1 : startsWithDashDash "1" = false := rfl
  have hv2 : startsWithDashDash "2" = false := rfl
  have hs1 : splitArgs ["--" ++ a, "1", "--" ++ b, "2"] = ([a, b], ["1", "2"]) := by
    rw [splitArgs_cons_flag, splitArgs_cons_value "1" _ hv1, splitArgs_cons_flag,
      splitArgs_cons_value "2" _ hv2]
    rfl
  have hs2 : splitArgs ["--" ++ b, "2", "--" ++ a, "1"] = ([b, a], ["2", "1"]) := by
    rw [splitArgs_cons_flag, splitArgs_cons_value "2" _ hv2, splitArgs_cons_flag,
      splitArgs_cons_value "1" _ hv1]
    rfl
  constructor
  · rw [parse_eq_processFlags args st _ [a, b] ["1", "2"] hs1,
      processFlags_step_ok args a [b] st ["1", "2"]
        { description := da, value := scalarFiller fa ta setA } (setA st v1) ["2"]
        hla (scalarFiller_fill_ok fa ta setA st "1" ["2"] v1 h1),
      processFlags_step_ok args b [] (setA st v1) ["2"]
        { description := db, value := scalarFiller fb tb setB }
        (setB (setA st v1) v2) []
        hlb (scalarFiller_fill_ok fb tb setB (setA st v1) "2" [] v2 h2)]
    rfl
  · rw [parse_eq_processFlags args st _ [b, a] ["2", "1"] hs2,
      processFlags_step_ok args b [a] st ["2", "1"]
        { description := db, value := scalarFiller fb tb setB } (setB st v2) ["1"]
        hlb (scalarFiller_fill_ok fb tb setB st "2" ["1"] v2 h2),
      processFlags_step_ok args a [] (setB st v2) ["1"]
        { description := da, value := scalarFiller fa ta setA }
        (setA (setB st v2) v1) []
        hla (scalarFiller_fill_ok fa ta setA (setB st v2) "1" [] v1 h1),
      hcomm]
    rfl

theorem scalar_flags_commute_witness :
    xyArgs.parse demoInit ["--" ++ "a", "1", "--" ++ "b", "2"]
      = .ok (setY (setX demoInit 1) 2) []
    ∧ xyArgs.parse demoInit ["--" ++ "b", "2", "--" ++ "a", "1"]
      = .ok (setY (setX demoInit 1) 2) [] :=
  scalar_flags_commute DemoState Nat Nat natFromStr natFromStr "usize" "usize"
    "the x value" "the y value" setX setY xyArgs "a" "b" 1 2 demoInit
    rfl rfl (by decide) (by decide) (by decide)

/-- C10: on any successful parse whose registered converters are each
either one-token scalars or zero-token boolean flags, the leftovers are a
contiguous suffix of the pooled value tokens, of length the number of
value tokens minus the number of scalar-converter invocations. -/
theorem parse_leftovers_suffix :
    ∀ (σ : Type) (args : Arguments σ) (tag : String → Bool),
      (∀ f fl, lookupFlag args.flags f = some fl →
        ((tag f = true → fl.value.ConsumesOne)
          ∧ (tag f = false → fl.value.ConsumesNone))) →
      ∀ (st : σ) (tokens : List String) (st' : σ) (lv : List String),
        args.parse st tokens = .ok st' lv →
        lv <:+ (splitArgs tokens).2
          ∧ lv.length + (splitArgs tokens).1.countP tag
              = (splitArgs tokens).2.length := by
  intro σ args tag htag st tokens st' lv hp
  cases h : splitArgs tokens with
  | mk fs vs =>
    have hp' : processFlags args fs st vs = .ok st' lv := by
      simpa [Arguments.parse, h] using hp
    simpa [h] using processFlags_cursor args tag htag fs st vs st' lv hp'

theorem parse_leftovers_suffix_witness :
    ["extra"] <:+ (splitArgs ["--verbose", "--count", "5", "extra"]).2
    ∧ (["extra"] : List String).length
        + (splitArgs ["--verbose", "--count", "5", "extra"]).1.countP cvTag
        = (splitArgs ["--verbose", "--count", "5", "extra"]).2.length :=
  parse_leftovers_suffix DemoState cvArgs cvTag cvArgs_classified demoInit
    ["--verbose", "--count", "5", "extra"]
    { demoInit with verbose := true, count := 5 } ["extra"] (by decide)


theorem string_empty_append (s : String) : "" ++ s = s := by
  cases s
  rfl

set_option maxHeartbeats 800000 in
/-- C7: `usage` is an optional header line naming the program (present
exactly when a name was supplied at construction) followed by one line per
registered flag, the flags sorted lexicographically by name regardless of
registration order, each line showing `--<name>` padded to the fixed
column width 20, the type label in parentheses, and the description; it is
a pure function of the registry. -/
theorem usage_spec :
    (∀ (σ : Type) (l : List (String × Flag σ)) (e : String),
      Arguments.usage ⟨l, some e⟩
        = ("usage:\n" ++ e ++ " [flags] args...\n")
          ++ String.join ((l.insertionSort byKey).map (fun p => flagLine p.1 p.2)))
    ∧ (∀ (σ : Type) (l : List (String × Flag σ)),
        Arguments.usage ⟨l, none⟩
          = String.join ((l.insertionSort byKey).map (fun p => flagLine p.1 p.2)))
    ∧ (∀ (σ : Type) (l : List (String × Flag σ)),
        (l.insertionSort byKey).Perm l
          ∧ List.Sorted byKey (l.insertionSort byKey))
    ∧ (∀ (σ : Type) (nm : Option String) (l1 l2 : List (String × Flag σ)),
        l1.Perm l2 → (l1.map Prod.fst).Nodup →
        Arguments.usage ⟨l1, nm⟩ = Arguments.usage ⟨l2, nm⟩)
    ∧ (∀ (σ : Type) (name : String) (fl : Flag σ),
        flagLine name fl
          = "\t--" ++ padRight name 20 ++ " (" ++ fl.value.type_name ++ ") "
            ++ fl.description ++ "\n")
    ∧ cvArgs.usage
        = "usage:\nargs_tester [flags] args...\n\t--count                (usize) a number\n\t--verbose              (flag) a boolean value\n" := by
  refine ⟨fun σ l e => rfl, ?_, ?_, ?_, fun σ name fl => rfl, by decide⟩
  · intro σ l
    exact string_empty_append _
  · intro σ l
    exact ⟨List.perm_insertionSort byKey l, List.sorted_insertionSort byKey l⟩
  · intro σ nm l1 l2 hperm hnd
    have hsort := insertionSort_eq_of_perm l1 l2 hperm hnd
    simp only [Arguments.usage]
    rw [hsort]

theorem usage_spec_witness :
    Arguments.usage (σ := DemoState) ⟨[countEntry, verboseEntry], some "args_tester"⟩
      = Arguments.usage ⟨[verboseEntry, countEntry], some "args_tester"⟩ :=
  usage_spec.2.2.2.1 DemoState (some "args_tester") [countEntry, verboseEntry]
    [verboseEntry, countEntry] (List.Perm.swap verboseEntry countEntry [])
    (by decide)

/-- C8: each flag name maps to exactly one binding; registering under a
name already present silently replaces the existing binding (last
registration wins) while other names are untouched, and a subsequent
parse of that flag writes only to the variable of the last registration. -/
theorem registration_last_wins :
    (∀ (σ : Type) (m : List (String × Flag σ)) (k : String) (v : Flag σ),
      lookupFlag (insertFlag m k v) k = some v)
    ∧ (∀ (σ : Type) (m : List (String × Flag σ)) (k k2 : String) (v : Flag σ),
        k2 ≠ k → lookupFlag (insertFlag m k v) k2 = lookupFlag m k2)
    ∧ (∀ (σ : Type) (m : List (String × Flag σ)) (k : String) (v : Flag σ),
        (m.map Prod.fst).Nodup → ((insertFlag m k v).map Prod.fst).Nodup)
    ∧ dupArgs.flags = [("a", { description := "second", value := usizeFiller setY })]
    ∧ dupArgs.parse demoInit ["--a", "7"] = .ok { demoInit with y := 7 } [] := by
  refine ⟨fun σ m k v => lookupFlag_insertFlag_self m k v,
    fun σ m k k2 v h => lookupFlag_insertFlag_ne m k k2 v h,
    fun σ m k v h => nodup_flagKeys_insertFlag m k v h, rfl, by decide⟩

theorem registration_last_wins_witness :
    lookupFlag (insertFlag
        ([("a", { description := "first", value := usizeFiller setX })]
          : List (String × Flag DemoState))
        "a" { description := "second", value := usizeFiller setY }) "b"
      = lookupFlag
          ([("a", { description := "first", value := usizeFiller setX })]
            : List (String × Flag DemoState)) "b"
    ∧ ((insertFlag
        ([("a", { description := "first", value := usizeFiller setX })]
          : List (String × Flag DemoState))
        "a" { description := "second", value := usizeFiller setY }).map
          Prod.fst).Nodup :=
  ⟨registration_last_wins.2.1 DemoState _ "a" "b" _ (by decide),
   registration_last_wins.2.2.1 DemoState _ "a" _ (by decide)⟩

end SimpleArguments
